import Mathlib

/-!
Shallow embedding of the snowflake ID generator (snowflake.go).

Go `int64` values are modelled as `Int` together with explicit two's
complement wrap-around at 2^64 where Go's machine arithmetic can overflow:
`toU64` maps an int64 value to its unsigned 64-bit representative, `ofU64`
maps back, and `shl64`, `or64`, `and64`, `xor64`, `sub64` are the Go
operators `<<`, `|`, `&`, `^`, `-` on int64.

The wall clock (`timeGen` in Go) is modelled by passing the readings it
would return explicitly: `NextId` receives the first reading `t` and the
list `rest` of further readings consumed by the busy-wait loop
`tilNextMillis`; a result of `none` means the busy-wait ran out of supplied
readings (the Go loop would still be spinning).
-/

namespace Snowflake

/-- Unsigned 64-bit representative of an int64 value. -/
def toU64 (x : Int) : Nat := (x % (2 ^ 64 : Int)).toNat

/-- Int64 value denoted by an unsigned 64-bit representative. -/
def ofU64 (n : Nat) : Int := if n < 2 ^ 63 then (n : Int) else (n : Int) - 2 ^ 64

/-- Go int64 subtraction (wraps at 2^64). -/
def sub64 (a b : Int) : Int := ofU64 (toU64 (a - b))

/-- Go int64 left shift `a << k`. -/
def shl64 (a : Int) (k : Nat) : Int := ofU64 (toU64 a <<< k % 2 ^ 64)

/-- Go int64 bitwise or `a | b`. -/
def or64 (a b : Int) : Int := ofU64 (Nat.lor (toU64 a) (toU64 b))

/-- Go int64 bitwise and `a & b`. -/
def and64 (a b : Int) : Int := ofU64 (Nat.land (toU64 a) (toU64 b))

/-- Go int64 bitwise xor `a ^ b`. -/
def xor64 (a b : Int) : Int := ofU64 (Nat.xor (toU64 a) (toU64 b))

/-- 起始时间: 2020-01-01 00:00:00 in Unix milliseconds (snowflake.go line 19). -/
def twepoch : Int := 1577808000000

def workerIdBits : Nat := 5
def datacenterIdBits : Nat := 5

/-- `-1 ^ (-1 << workerIdBits)` (snowflake.go line 23). -/
def maxWorkerId : Int := xor64 (-1) (shl64 (-1) workerIdBits)

/-- `-1 ^ (-1 << datacenterIdBits)` (snowflake.go line 24). -/
def maxDatacenterId : Int := xor64 (-1) (shl64 (-1) datacenterIdBits)

def sequenceBits : Nat := 12
def workerIdShift : Nat := sequenceBits
def datacenterIdShift : Nat := sequenceBits + workerIdBits
def timestampLeftShift : Nat := sequenceBits + workerIdBits + datacenterIdBits

/-- `-1 ^ (-1 << sequenceBits)` (snowflake.go line 30). -/
def sequenceMask : Int := xor64 (-1) (shl64 (-1) sequenceBits)

/-- The mutable state of a generator (struct `Snowflake`, the mutex is
control flow, not data). -/
structure Generator where
  lastTimestamp : Int
  workerId : Int
  datacenterId : Int
  sequence : Int
deriving DecidableEq

/-- `func New(workerId int64, datacenterId int64) (*Snowflake, error)`. -/
def New (workerId datacenterId : Int) : Except String Generator :=
  if workerId < 0 ∨ workerId > maxWorkerId then
    Except.error ("worker Id can't be greater than " ++ toString maxWorkerId ++
      " or less than 0")
  else if datacenterId < 0 ∨ datacenterId > maxDatacenterId then
    Except.error ("datacenter Id can't be greater than " ++ toString datacenterId ++
      " or less than 0")
  else
    Except.ok { lastTimestamp := 0, workerId := workerId,
                datacenterId := datacenterId, sequence := 0 }

/-- `func tilNextMillis(lastTimestamp int64) int64`: spin until the clock
reading strictly exceeds `lastTimestamp`.  The readings `timeGen` would
deliver are the list argument; `none` models a spin that never ends within
the supplied readings. -/
def tilNextMillis (lastTimestamp : Int) : List Int → Option Int
  | [] => none
  | t :: ts => if t ≤ lastTimestamp then tilNextMillis lastTimestamp ts else some t

/-- The return expression of `NextId` (snowflake.go lines 82-85):
`((timestamp - twepoch) << timestampLeftShift) | (datacenterId << datacenterIdShift) | (workerId << workerIdShift) | sequence`. -/
def composeId (timestamp datacenterId workerId sequence : Int) : Int :=
  or64 (or64 (or64 (shl64 (sub64 timestamp twepoch) timestampLeftShift)
    (shl64 datacenterId datacenterIdShift)) (shl64 workerId workerIdShift)) sequence

/-- `func (s *Snowflake) NextId() (int64, error)`.  `t` is the reading the
call's `timeGen()` returns; `rest` are the readings a busy-wait would see. -/
def NextId (s : Generator) (t : Int) (rest : List Int) :
    Option (Except String Int × Generator) :=
  if t < s.lastTimestamp then
    some (Except.error ("Clock moved backwards.  Refusing to generate id for " ++
      toString (s.lastTimestamp - t) ++ " milliseconds"), s)
  else if t = s.lastTimestamp then
    let sq := and64 (s.sequence + 1) sequenceMask
    if sq = 0 then
      match tilNextMillis s.lastTimestamp rest with
      | none => none
      | some ts =>
        some (Except.ok (composeId ts s.datacenterId s.workerId sq),
          { s with sequence := sq, lastTimestamp := ts })
    else
      some (Except.ok (composeId t s.datacenterId s.workerId sq),
        { s with sequence := sq, lastTimestamp := t })
  else
    some (Except.ok (composeId t s.datacenterId s.workerId 0),
      { s with sequence := 0, lastTimestamp := t })

/-- The single-threaded same-millisecond scenario of §8: `n` consecutive
`NextId` calls, each of whose clock reading is `T` (no spin readings
supplied). -/
def runSameMs (s : Generator) (T : Int) : Nat → Option (List Int × Generator)
  | 0 => some ([], s)
  | n + 1 =>
    match NextId s T [] with
    | some (Except.ok id, s1) =>
      match runSameMs s1 T n with
      | some (ids, s2) => some (id :: ids, s2)
      | _ => none
    | _ => none

/-- Bits 11-0 of an issued ID. -/
def seqComponent (id : Int) : Nat := toU64 id % 2 ^ 12

/-- Bits 16-12 of an issued ID. -/
def workerComponent (id : Int) : Nat := toU64 id / 2 ^ 12 % 2 ^ 5

/-- Bits 21-17 of an issued ID. -/
def datacenterComponent (id : Int) : Nat := toU64 id / 2 ^ 17 % 2 ^ 5

/-- Bits 62-22 of an issued ID. -/
def timestampComponent (id : Int) : Nat := toU64 id / 2 ^ 22 % 2 ^ 41

lemma maxWorkerId_eq : maxWorkerId = 31 := by decide

lemma maxDatacenterId_eq : maxDatacenterId = 31 := by decide

lemma sequenceMask_eq : sequenceMask = 4095 := by decide

lemma timestampLeftShift_eq : timestampLeftShift = 22 := rfl

lemma datacenterIdShift_eq : datacenterIdShift = 17 := rfl

lemma workerIdShift_eq : workerIdShift = 12 := rfl

lemma two_pow_64_int : (2 : Int) ^ 64 = 18446744073709551616 := by norm_num

lemma two_pow_63_nat : (2 : Nat) ^ 63 = 9223372036854775808 := by norm_num

lemma toU64_lt (x : Int) : toU64 x < 2 ^ 64 := by
  simp only [toU64, two_pow_64_int]
  omega

lemma toU64_ofU64 {n : Nat} (h : n < 2 ^ 64) : toU64 (ofU64 n) = n := by
  simp only [toU64, ofU64, two_pow_64_int, two_pow_63_nat] at *
  split <;> omega

lemma toU64_small {x : Int} (h0 : 0 ≤ x) (h : x < 2 ^ 64) : toU64 x = x.toNat := by
  simp only [toU64, two_pow_64_int] at *
  omega

lemma ofU64_small {n : Nat} (h : n < 2 ^ 63) : ofU64 n = (n : Int) := by
  simp only [ofU64, two_pow_63_nat] at *
  split <;> omega

lemma ofU64_large {n : Nat} (h : 2 ^ 63 ≤ n) : ofU64 n = (n : Int) - 2 ^ 64 := by
  simp only [ofU64, two_pow_63_nat, two_pow_64_int] at *
  split <;> omega

lemma lor_lt {a b : Nat} (ha : a < 2 ^ 64) (hb : b < 2 ^ 64) : Nat.lor a b < 2 ^ 64 := by
  apply Nat.lt_pow_two_of_testBit
  intro i hi
  have h1 : a < 2 ^ i := lt_of_lt_of_le ha (Nat.pow_le_pow_right (by norm_num) hi)
  have h2 : b < 2 ^ i := lt_of_lt_of_le hb (Nat.pow_le_pow_right (by norm_num) hi)
  show (a ||| b).testBit i = false
  rw [Nat.testBit_lor, Nat.testBit_lt_two_pow h1, Nat.testBit_lt_two_pow h2]
  rfl

/-- Bitwise or of values occupying disjoint bit ranges is addition. -/
lemma lor_disjoint {b k : Nat} (a : Nat) (hb : b < 2 ^ k) :
    Nat.lor (2 ^ k * a) b = 2 ^ k * a + b := by
  apply Nat.eq_of_testBit_eq
  intro j
  show ((2 ^ k * a) ||| b).testBit j = _
  rw [Nat.testBit_lor, Nat.testBit_mul_pow_two_add a hb j]
  rw [Nat.mul_comm, ← Nat.shiftLeft_eq, Nat.testBit_shiftLeft]
  by_cases hj : j < k
  · have : ¬ (j ≥ k) := by omega
    simp [hj, this]
  · have hge : j ≥ k := by omega
    have hbj : b.testBit j = false :=
      Nat.testBit_lt_two_pow (lt_of_lt_of_le hb (Nat.pow_le_pow_right (by norm_num) hge))
    simp [hj, hge, hbj]

lemma toU64_or64 (a b : Int) : toU64 (or64 a b) = Nat.lor (toU64 a) (toU64 b) := by
  exact toU64_ofU64 (lor_lt (toU64_lt a) (toU64_lt b))

lemma or64_eq_ofU64_toU64 (a b : Int) : or64 a b = ofU64 (toU64 (or64 a b)) := by
  rw [toU64_or64]
  rfl

/-- `x & sequenceMask` is `mod 4096` on the unsigned representative; in
particular it always lands in `[0, 4095]`. -/
lemma and64_mask (x : Int) : and64 x sequenceMask = ((toU64 x % 4096 : Nat) : Int) := by
  have hm : toU64 sequenceMask = 4095 := by decide
  have h4095 : (4095 : Nat) = 2 ^ 12 - 1 := by norm_num
  simp only [and64, hm]
  rw [show Nat.land (toU64 x) 4095 = toU64 x &&& 2 ^ 12 - 1 by rw [h4095]; rfl]
  rw [Nat.and_pow_two_sub_one_eq_mod]
  exact ofU64_small (by omega)

lemma and64_mask_nonneg (x : Int) : 0 ≤ and64 x sequenceMask := by
  rw [and64_mask]; positivity

lemma and64_mask_le (x : Int) : and64 x sequenceMask ≤ 4095 := by
  rw [and64_mask]
  have : toU64 x % 4096 < 4096 := Nat.mod_lt _ (by norm_num)
  omega

/-- On an in-range sequence value the Go masking is `mod 4096` on `Int`. -/
lemma and64_seq {q : Int} (h0 : 0 ≤ q) (h1 : q ≤ 4095) :
    and64 (q + 1) sequenceMask = (q + 1) % 4096 := by
  rw [and64_mask]
  rw [toU64_small (by omega) (by rw [two_pow_64_int]; omega)]
  omega

lemma twepoch_eq : twepoch = 1577808000000 := rfl

/-- The unsigned representative of a composed ID, as plain arithmetic: the
four fields occupy disjoint bit ranges, so the bitwise ors are sums.  The
timestamp field is whatever the wrapped shift left by 22 produces (its low
42 bits), with no assumption on the timestamp itself. -/
lemma toU64_composeId {T dc w q : Int} (hdc0 : 0 ≤ dc) (hdc : dc ≤ 31)
    (hw0 : 0 ≤ w) (hw : w ≤ 31) (hq0 : 0 ≤ q) (hq : q ≤ 4095) :
    toU64 (composeId T dc w q) =
      2 ^ 22 * (toU64 (sub64 T twepoch) % 2 ^ 42) +
        dc.toNat * 2 ^ 17 + w.toNat * 2 ^ 12 + q.toNat := by
  have hdcN : dc.toNat ≤ 31 := by omega
  have hwN : w.toNat ≤ 31 := by omega
  have hqN : q.toNat ≤ 4095 := by omega
  have hNlt : toU64 (sub64 T twepoch) < 2 ^ 64 := toU64_lt _
  have hA : toU64 (sub64 T twepoch) % 2 ^ 42 < 2 ^ 42 := Nat.mod_lt _ (by norm_num)
  have h1 : toU64 (shl64 (sub64 T twepoch) timestampLeftShift) =
      2 ^ 22 * (toU64 (sub64 T twepoch) % 2 ^ 42) := by
    simp only [shl64, timestampLeftShift_eq, Nat.shiftLeft_eq]
    rw [show (2 : Nat) ^ 64 = 2 ^ 42 * 2 ^ 22 by norm_num, Nat.mul_mod_mul_right]
    rw [toU64_ofU64 (by have := hA; omega)]
    ring
  have h2 : toU64 (shl64 dc datacenterIdShift) = dc.toNat * 2 ^ 17 := by
    simp only [shl64, datacenterIdShift_eq, Nat.shiftLeft_eq]
    rw [toU64_small hdc0 (by rw [two_pow_64_int]; omega)]
    rw [Nat.mod_eq_of_lt (by omega)]
    exact toU64_ofU64 (by omega)
  have h3 : toU64 (shl64 w workerIdShift) = w.toNat * 2 ^ 12 := by
    simp only [shl64, workerIdShift_eq, Nat.shiftLeft_eq]
    rw [toU64_small hw0 (by rw [two_pow_64_int]; omega)]
    rw [Nat.mod_eq_of_lt (by omega)]
    exact toU64_ofU64 (by omega)
  have h4 : toU64 q = q.toNat := toU64_small hq0 (by rw [two_pow_64_int]; omega)
  have o1 : toU64 (or64 (shl64 (sub64 T twepoch) timestampLeftShift)
      (shl64 dc datacenterIdShift)) =
      2 ^ 22 * (toU64 (sub64 T twepoch) % 2 ^ 42) + dc.toNat * 2 ^ 17 := by
    rw [toU64_or64, h1, h2]
    exact lor_disjoint _ (by omega)
  have o2 : toU64 (or64 (or64 (shl64 (sub64 T twepoch) timestampLeftShift)
      (shl64 dc datacenterIdShift)) (shl64 w workerIdShift)) =
      2 ^ 22 * (toU64 (sub64 T twepoch) % 2 ^ 42) +
        dc.toNat * 2 ^ 17 + w.toNat * 2 ^ 12 := by
    rw [toU64_or64, o1, h3]
    rw [show 2 ^ 22 * (toU64 (sub64 T twepoch) % 2 ^ 42) + dc.toNat * 2 ^ 17 =
      2 ^ 17 * (2 ^ 5 * (toU64 (sub64 T twepoch) % 2 ^ 42) + dc.toNat) by ring]
    rw [lor_disjoint _ (show w.toNat * 2 ^ 12 < 2 ^ 17 by omega)]
  show toU64 (or64 _ q) = _
  rw [toU64_or64, o2, h4]
  rw [show 2 ^ 22 * (toU64 (sub64 T twepoch) % 2 ^ 42) +
      dc.toNat * 2 ^ 17 + w.toNat * 2 ^ 12 =
      2 ^ 12 * (2 ^ 10 * (toU64 (sub64 T twepoch) % 2 ^ 42) +
        dc.toNat * 2 ^ 5 + w.toNat) by ring]
  rw [lor_disjoint _ (show q.toNat < 2 ^ 12 by omega)]

/-- For a timestamp in the representable window the composed ID is the
plain (non-wrapping) arithmetic value, a non-negative int64 below 2^63. -/
lemma composeId_inrange {T dc w q : Int}
    (hT0 : twepoch ≤ T) (hT1 : T < twepoch + 2 ^ 41)
    (hdc0 : 0 ≤ dc) (hdc : dc ≤ 31) (hw0 : 0 ≤ w) (hw : w ≤ 31)
    (hq0 : 0 ≤ q) (hq : q ≤ 4095) :
    composeId T dc w q = (T - twepoch) * 2 ^ 22 + dc * 2 ^ 17 + w * 2 ^ 12 + q ∧
      toU64 (composeId T dc w q) =
        ((T - twepoch) * 2 ^ 22 + dc * 2 ^ 17 + w * 2 ^ 12 + q).toNat := by
  have e41 : (2 : Int) ^ 41 = 2199023255552 := by norm_num
  rw [twepoch_eq] at hT0 hT1
  rw [e41] at hT1
  have hs : sub64 T twepoch = T - twepoch := by
    simp only [sub64]
    rw [toU64_small (by rw [twepoch_eq]; omega)
      (by rw [twepoch_eq, two_pow_64_int]; omega)]
    rw [ofU64_small (by rw [twepoch_eq, two_pow_63_nat]; omega)]
    rw [twepoch_eq]
    omega
  have hNval : toU64 (sub64 T twepoch) = (T - twepoch).toNat := by
    rw [hs, toU64_small (by rw [twepoch_eq]; omega)
      (by rw [twepoch_eq, two_pow_64_int]; omega)]
  have hNsmall : (T - twepoch).toNat < 2 ^ 41 := by
    rw [twepoch_eq]
    have : (2 : Nat) ^ 41 = 2199023255552 := by norm_num
    omega
  have hU := @toU64_composeId T dc w q hdc0 hdc hw0 hw hq0 hq
  rw [hNval, Nat.mod_eq_of_lt (by have := hNsmall; omega)] at hU
  have hval : 2 ^ 22 * (T - twepoch).toNat + dc.toNat * 2 ^ 17 + w.toNat * 2 ^ 12 +
      q.toNat = ((T - twepoch) * 2 ^ 22 + dc * 2 ^ 17 + w * 2 ^ 12 + q).toNat := by
    rw [twepoch_eq]
    have e22 : (2 : Nat) ^ 22 = 4194304 := by norm_num
    have e22i : (2 : Int) ^ 22 = 4194304 := by norm_num
    have e17 : (2 : Nat) ^ 17 = 131072 := by norm_num
    have e17i : (2 : Int) ^ 17 = 131072 := by norm_num
    have e12 : (2 : Nat) ^ 12 = 4096 := by norm_num
    have e12i : (2 : Int) ^ 12 = 4096 := by norm_num
    rw [e22, e22i, e17, e17i, e12, e12i, twepoch_eq] at *
    omega
  constructor
  · show or64 _ q = _
    rw [or64_eq_ofU64_toU64]
    show ofU64 (toU64 (composeId T dc w q)) = _
    rw [hU, hval]
    rw [ofU64_small ?bound]
    case bound =>
      have e63 : (2 : Nat) ^ 63 = 9223372036854775808 := by norm_num
      have e41n : (2 : Nat) ^ 41 = 2199023255552 := by norm_num
      rw [twepoch_eq] at *
      have e22i : (2 : Int) ^ 22 = 4194304 := by norm_num
      have e17i : (2 : Int) ^ 17 = 131072 := by norm_num
      have e12i : (2 : Int) ^ 12 = 4096 := by norm_num
      rw [e22i, e17i, e12i] at *
      omega
    rw [twepoch_eq] at *
    have e22i : (2 : Int) ^ 22 = 4194304 := by norm_num
    have e17i : (2 : Int) ^ 17 = 131072 := by norm_num
    have e12i : (2 : Int) ^ 12 = 4096 := by norm_num
    rw [e22i, e17i, e12i] at *
    omega
  · rw [hU, hval]

lemma tilNextMillis_some {L : Int} {c : List Int} {ts : Int}
    (h : tilNextMillis L c = some ts) : L < ts ∧ ts ∈ c := by
  induction c with
  | nil => simp [tilNextMillis] at h
  | cons t rest ih =>
    simp only [tilNextMillis] at h
    split at h
    · obtain ⟨h1, h2⟩ := ih h
      exact ⟨h1, List.mem_cons_of_mem _ h2⟩
    · cases h
      exact ⟨by omega, List.mem_cons_self _ _⟩

/-- The busy-wait returns the first clock reading strictly exceeding
`lastTimestamp`. -/
lemma tilNextMillis_eq_find (L : Int) (c : List Int) :
    tilNextMillis L c = c.find? (fun x => decide (L < x)) := by
  induction c with
  | nil => rfl
  | cons t rest ih =>
    simp only [tilNextMillis]
    by_cases hc : t ≤ L
    · rw [if_pos hc, List.find?_cons_of_neg _ (by simp; omega), ih]
    · rw [if_neg hc, List.find?_cons_of_pos _ (by simp; omega)]

/-- Everything a successful `NextId` call guarantees: identity fields are
unchanged, the returned ID is the composition of the new state's timestamp
and sequence, the new sequence is a 12-bit value, the recorded timestamp
never decreases and is one of the supplied clock readings, and the call
either advanced the timestamp or (same millisecond) advanced the sequence
without wrapping. -/
lemma nextId_ok_elim {s : Generator} {t : Int} {rest : List Int} {a : Int}
    {s1 : Generator} (h : NextId s t rest = some (Except.ok a, s1)) :
    s1.workerId = s.workerId ∧ s1.datacenterId = s.datacenterId ∧
    a = composeId s1.lastTimestamp s.datacenterId s.workerId s1.sequence ∧
    0 ≤ s1.sequence ∧ s1.sequence ≤ 4095 ∧
    s.lastTimestamp ≤ s1.lastTimestamp ∧
    s1.lastTimestamp ∈ t :: rest ∧
    (s.lastTimestamp < s1.lastTimestamp ∨
      (s1.lastTimestamp = s.lastTimestamp ∧ t = s.lastTimestamp ∧
        s1.sequence = and64 (s.sequence + 1) sequenceMask ∧ s1.sequence ≠ 0)) := by
  simp only [NextId] at h
  split at h
  · simp at h
  · split at h
    · -- same-millisecond branch
      rename_i hlt heq
      split at h
      · -- sequence wrapped: busy-wait
        rename_i hsq
        cases htn : tilNextMillis s.lastTimestamp rest with
        | none => rw [htn] at h; simp at h
        | some ts =>
          rw [htn] at h
          simp only [Option.some.injEq, Prod.mk.injEq, Except.ok.injEq] at h
          obtain ⟨ha, hs1⟩ := h
          obtain ⟨hgt, hmem⟩ := tilNextMillis_some htn
          subst hs1
          refine ⟨rfl, rfl, ?_, ?_, ?_, by simpa using le_of_lt hgt,
            List.mem_cons_of_mem _ hmem, Or.inl (by simpa using hgt)⟩
          · rw [← ha, hsq]
          · simp [hsq]
          · simp [hsq]
      · -- sequence did not wrap
        rename_i hsq
        simp only [Option.some.injEq, Prod.mk.injEq, Except.ok.injEq] at h
        obtain ⟨ha, hs1⟩ := h
        subst hs1
        refine ⟨rfl, rfl, by rw [← ha, heq], and64_mask_nonneg _, and64_mask_le _,
          by simp [heq], by simp [heq], Or.inr ⟨by simp [heq], heq, rfl, hsq⟩⟩
    · -- clock advanced
      rename_i hlt heq
      simp only [Option.some.injEq, Prod.mk.injEq, Except.ok.injEq] at h
      obtain ⟨ha, hs1⟩ := h
      subst hs1
      refine ⟨rfl, rfl, ha.symm, le_refl _, by norm_num, by simp; omega,
        List.mem_cons_self _ _, Or.inl (by simp; omega)⟩

/-- C2: every successful `NextId` call returns exactly
`((timestamp - twepoch) << 22) | (datacenterId << 17) | (workerId << 12) | sequence`,
where `timestamp` and `sequence` are the values the clock/sequence state
machine recorded for the call (the post-state's `lastTimestamp` and
`sequence`), and the epoch is the constant 1577808000000. -/
theorem nextId_returns_packed_layout {s : Generator} {t : Int} {rest : List Int}
    {a : Int} {s1 : Generator} (h : NextId s t rest = some (Except.ok a, s1)) :
    a = or64 (or64 (or64 (shl64 (sub64 s1.lastTimestamp twepoch) 22)
        (shl64 s.datacenterId 17)) (shl64 s.workerId 12)) s1.sequence ∧
      twepoch = 1577808000000 :=
  ⟨(nextId_ok_elim h).2.2.1, rfl⟩

set_option maxRecDepth 4000 in
theorem nextId_returns_packed_layout_witness :
    (266240 : Int) = or64 (or64 (or64 (shl64 (sub64
        (Generator.mk 1577808000000 1 2 0).lastTimestamp twepoch) 22)
        (shl64 (Generator.mk 0 1 2 0).datacenterId 17))
        (shl64 (Generator.mk 0 1 2 0).workerId 12))
        (Generator.mk 1577808000000 1 2 0).sequence ∧
      twepoch = 1577808000000 :=
  @nextId_returns_packed_layout ⟨0, 1, 2, 0⟩ 1577808000000 [] 266240
    ⟨1577808000000, 1, 2, 0⟩ rfl

/-- C8: when the clock reading strictly exceeds `lastTimestamp` the call
resets `sequence` to 0 and records the reading; and on every successful
call the recorded `lastTimestamp` is exactly the timestamp composed into
the returned ID. -/
theorem nextId_advances_state {s : Generator} {t : Int} {rest : List Int}
    {a : Int} {s1 : Generator} (h : NextId s t rest = some (Except.ok a, s1)) :
    (s.lastTimestamp < t → s1.sequence = 0 ∧ s1.lastTimestamp = t) ∧
      a = composeId s1.lastTimestamp s.datacenterId s.workerId s1.sequence := by
  constructor
  · intro hlt
    simp only [NextId] at h
    split at h
    · simp at h
    · split at h
      · rename_i h1 h2
        omega
      · simp only [Option.some.injEq, Prod.mk.injEq, Except.ok.injEq] at h
        obtain ⟨ha, hs1⟩ := h
        subst hs1
        exact ⟨rfl, rfl⟩
  · exact (nextId_ok_elim h).2.2.1

set_option maxRecDepth 4000 in
theorem nextId_advances_state_witness :
    ((Generator.mk 0 1 2 7).lastTimestamp < 50 →
      (Generator.mk 50 1 2 0).sequence = 0 ∧
        (Generator.mk 50 1 2 0).lastTimestamp = 50) ∧
      composeId 50 2 1 0 = composeId (Generator.mk 50 1 2 0).lastTimestamp
        (Generator.mk 0 1 2 7).datacenterId (Generator.mk 0 1 2 7).workerId
        (Generator.mk 50 1 2 0).sequence :=
  @nextId_advances_state ⟨0, 1, 2, 7⟩ 50 [] (composeId 50 2 1 0)
    ⟨50, 1, 2, 0⟩ rfl

/-- C3: when the clock reading equals `lastTimestamp`, a successful call
sets `sequence := (sequence + 1) mod 4096`; if that increment wrapped to 0
the call busy-waits, uses the first clock reading strictly exceeding
`lastTimestamp` as its timestamp, and composes the ID with sequence 0. -/
theorem nextId_same_millisecond {s : Generator} {t : Int} {rest : List Int}
    {a : Int} {s1 : Generator}
    (hq0 : 0 ≤ s.sequence) (hq1 : s.sequence ≤ 4095) (ht : t = s.lastTimestamp)
    (h : NextId s t rest = some (Except.ok a, s1)) :
    s1.sequence = (s.sequence + 1) % 4096 ∧
      ((s.sequence + 1) % 4096 = 0 →
        List.find? (fun x => decide (s.lastTimestamp < x)) rest = some s1.lastTimestamp ∧
          s.lastTimestamp < s1.lastTimestamp ∧
          a = composeId s1.lastTimestamp s.datacenterId s.workerId 0) := by
  have hmask := and64_seq hq0 hq1
  simp only [NextId] at h
  rw [if_neg (by omega), if_pos ht] at h
  split at h
  · rename_i hsq
    cases htn : tilNextMillis s.lastTimestamp rest with
    | none => rw [htn] at h; simp at h
    | some ts =>
      rw [htn] at h
      simp only [Option.some.injEq, Prod.mk.injEq, Except.ok.injEq] at h
      obtain ⟨ha, hs1⟩ := h
      subst hs1
      obtain ⟨hgt, _⟩ := tilNextMillis_some htn
      refine ⟨by simpa using hmask, fun _ => ?_⟩
      rw [← tilNextMillis_eq_find]
      exact ⟨by simpa using htn, by simpa using hgt, by rw [← ha, hsq]⟩
  · rename_i hsq
    simp only [Option.some.injEq, Prod.mk.injEq, Except.ok.injEq] at h
    obtain ⟨ha, hs1⟩ := h
    subst hs1
    refine ⟨by simpa using hmask, fun hz => absurd (hmask.trans hz) hsq⟩

set_option maxRecDepth 4000 in
theorem nextId_same_millisecond_witness :
    (0 : Int) ≤ (Generator.mk 5 1 2 3).sequence ∧
      (Generator.mk 5 1 2 3).sequence ≤ 4095 ∧
      ((Generator.mk 5 1 2 4).sequence = ((Generator.mk 5 1 2 3).sequence + 1) % 4096 ∧
        (((Generator.mk 5 1 2 3).sequence + 1) % 4096 = 0 →
          List.find? (fun x => decide ((Generator.mk 5 1 2 3).lastTimestamp < x)) [] =
            some (Generator.mk 5 1 2 4).lastTimestamp ∧
            (Generator.mk 5 1 2 3).lastTimestamp < (Generator.mk 5 1 2 4).lastTimestamp ∧
            composeId 5 2 1 4 = composeId (Generator.mk 5 1 2 4).lastTimestamp
              (Generator.mk 5 1 2 3).datacenterId (Generator.mk 5 1 2 3).workerId 0)) :=
  ⟨by decide, by decide,
    @nextId_same_millisecond ⟨5, 1, 2, 3⟩ 5 [] (composeId 5 2 1 4) ⟨5, 1, 2, 4⟩
      (by decide) (by decide) rfl rfl⟩

/-- C4: a clock reading strictly behind `lastTimestamp` makes `NextId` fail
with the clock-regression error reporting exactly
`lastTimestamp - timestamp` milliseconds of drift, the generator state is
returned unchanged, and a later call whose reading is at or past a corrected
clock (strictly ahead) succeeds. -/
theorem nextId_clock_regression {s : Generator} {t : Int} (rest : List Int)
    (h : t < s.lastTimestamp) :
    NextId s t rest = some (Except.error
        ("Clock moved backwards.  Refusing to generate id for " ++
          toString (s.lastTimestamp - t) ++ " milliseconds"), s) ∧
      (∀ t2 r2, s.lastTimestamp < t2 →
        NextId s t2 r2 = some (Except.ok
          (composeId t2 s.datacenterId s.workerId 0),
          { s with sequence := 0, lastTimestamp := t2 })) := by
  constructor
  · simp [NextId, h]
  · intro t2 r2 h2
    simp only [NextId]
    rw [if_neg (by omega), if_neg (by omega)]

set_option maxRecDepth 4000 in
theorem nextId_clock_regression_witness :
    NextId ⟨100, 1, 2, 9⟩ 70 [] = some (Except.error
        ("Clock moved backwards.  Refusing to generate id for " ++
          toString ((Generator.mk 100 1 2 9).lastTimestamp - 70) ++ " milliseconds"),
        ⟨100, 1, 2, 9⟩) ∧
      (∀ t2 r2, (Generator.mk 100 1 2 9).lastTimestamp < t2 →
        NextId ⟨100, 1, 2, 9⟩ t2 r2 = some (Except.ok
          (composeId t2 (Generator.mk 100 1 2 9).datacenterId
            (Generator.mk 100 1 2 9).workerId 0),
          { Generator.mk 100 1 2 9 with sequence := 0, lastTimestamp := t2 })) :=
  @nextId_clock_regression ⟨100, 1, 2, 9⟩ 70 [] (by decide)

/-- C6: construction succeeds exactly on the 5-bit ranges: it returns a
generator with zeroed timestamp and sequence for every pair in `[0, 31]^2`,
and returns an error (no generator) whenever either argument is negative or
exceeds 31. -/
theorem new_validates_range (w dc : Int) :
    ((0 ≤ w ∧ w ≤ 31 ∧ 0 ≤ dc ∧ dc ≤ 31) →
      New w dc = Except.ok ⟨0, w, dc, 0⟩) ∧
      ((w < 0 ∨ 31 < w ∨ dc < 0 ∨ 31 < dc) →
        ∃ msg, New w dc = Except.error msg) := by
  constructor
  · rintro ⟨h1, h2, h3, h4⟩
    simp only [New]
    rw [if_neg (by rw [maxWorkerId_eq]; omega),
      if_neg (by rw [maxDatacenterId_eq]; omega)]
  · intro hbad
    simp only [New]
    by_cases hw : w < 0 ∨ w > maxWorkerId
    · rw [if_pos hw]
      exact ⟨_, rfl⟩
    · rw [maxWorkerId_eq] at hw
      rw [if_neg (by rw [maxWorkerId_eq]; omega),
        if_pos (by rw [maxDatacenterId_eq]; omega)]
      exact ⟨_, rfl⟩

theorem new_validates_range_witness :
    (New 5 7 = Except.ok ⟨0, 5, 7, 0⟩) ∧ (∃ msg, New 32 0 = Except.error msg) :=
  ⟨(new_validates_range 5 7).1 (by decide), (new_validates_range 32 0).2 (by decide)⟩

/-- C9 fails on the code: for an out-of-range `workerId` the error message
does state the 5-bit bound 31, but for an out-of-range `datacenterId` the
message interpolates the offending input itself (`datacenterId`) instead of
the bound `maxDatacenterId` (snowflake.go line 46), so it reports 32 or -1
rather than 31. -/
theorem new_config_error_message_text :
    New 32 0 = Except.error "worker Id can't be greater than 31 or less than 0" ∧
      New 0 32 = Except.error "datacenter Id can't be greater than 32 or less than 0" ∧
      New 0 (-1) = Except.error "datacenter Id can't be greater than -1 or less than 0" :=
  ⟨rfl, rfl, rfl⟩

/-- A composed ID whose timestamp lies at or after the Unix epoch but
strictly before `twepoch` is negative: the 41-bit field underflows and the
sign bit of the int64 result is set. -/
lemma composeId_pre_epoch_neg {T dc w q : Int} (hT0 : 0 ≤ T) (hT1 : T < twepoch)
    (hdc0 : 0 ≤ dc) (hdc : dc ≤ 31) (hw0 : 0 ≤ w) (hw : w ≤ 31)
    (hq0 : 0 ≤ q) (hq : q ≤ 4095) : composeId T dc w q < 0 := by
  have hU := @toU64_composeId T dc w q hdc0 hdc hw0 hw hq0 hq
  rw [twepoch_eq] at hT1
  have hN : toU64 (sub64 T twepoch) = (T - 1577808000000 + 18446744073709551616).toNat := by
    simp only [sub64]
    rw [toU64_ofU64 (toU64_lt _)]
    simp only [toU64, two_pow_64_int, twepoch_eq]
    omega
  have key : 2 ^ 63 ≤ toU64 (composeId T dc w q) ∧
      toU64 (composeId T dc w q) < 2 ^ 64 := by
    refine ⟨?_, toU64_lt _⟩
    rw [hU, hN]
    have e42 : (2 : Nat) ^ 42 = 4398046511104 := by norm_num
    have e22 : (2 : Nat) ^ 22 = 4194304 := by norm_num
    have e63 : (2 : Nat) ^ 63 = 9223372036854775808 := by norm_num
    rw [e42, e22, e63]
    omega
  have hrepr : composeId T dc w q = ofU64 (toU64 (composeId T dc w q)) := by
    show or64 _ q = _
    rw [or64_eq_ofU64_toU64]
    rfl
  rw [hrepr, ofU64_large key.1]
  have h64 := key.2
  rw [two_pow_64_int]
  have e64 : (2 : Nat) ^ 64 = 18446744073709551616 := by norm_num
  rw [e64] at h64
  omega

/-- C10: with an in-order clock reading that lies before the 2020 epoch
constant, `NextId` does not fail: it never takes the error branch, any ID it
returns is a negative int64 (the layout's always-zero sign bit is violated),
and when the reading is strictly ahead of `lastTimestamp` it returns
immediately and successfully. -/
theorem nextId_pre_epoch_sign_violation {s : Generator} {t : Int} {rest : List Int}
    (hw0 : 0 ≤ s.workerId) (hw : s.workerId ≤ 31)
    (hdc0 : 0 ≤ s.datacenterId) (hdc : s.datacenterId ≤ 31)
    (hle : s.lastTimestamp ≤ t)
    (hclock : ∀ x ∈ t :: rest, 0 ≤ x ∧ x < twepoch) :
    (∀ e s1, NextId s t rest ≠ some (Except.error e, s1)) ∧
      (∀ a s1, NextId s t rest = some (Except.ok a, s1) → a < 0) ∧
      (s.lastTimestamp < t →
        NextId s t rest = some (Except.ok (composeId t s.datacenterId s.workerId 0),
          { s with sequence := 0, lastTimestamp := t })) := by
  refine ⟨?_, ?_, ?_⟩
  · intro e s1
    simp only [NextId]
    rw [if_neg (by omega)]
    split
    · split
      · cases htn : tilNextMillis s.lastTimestamp rest <;> simp
      · simp
    · simp
  · intro a s1 h
    obtain ⟨_, _, ha, hq0', hq1', _, hmem, _⟩ := nextId_ok_elim h
    obtain ⟨hx0, hx1⟩ := hclock _ hmem
    rw [ha]
    exact composeId_pre_epoch_neg hx0 hx1 hdc0 hdc hw0 hw hq0' hq1'
  · intro hlt
    simp only [NextId]
    rw [if_neg (by omega), if_neg (by omega)]

set_option maxRecDepth 4000 in
theorem nextId_pre_epoch_sign_violation_witness :
    (∀ e s1, NextId ⟨0, 1, 2, 0⟩ 1577807999999 [] ≠ some (Except.error e, s1)) ∧
      (∀ a s1, NextId ⟨0, 1, 2, 0⟩ 1577807999999 [] = some (Except.ok a, s1) →
        a < 0) ∧
      ((Generator.mk 0 1 2 0).lastTimestamp < 1577807999999 →
        NextId ⟨0, 1, 2, 0⟩ 1577807999999 [] = some (Except.ok
          (composeId 1577807999999 (Generator.mk 0 1 2 0).datacenterId
            (Generator.mk 0 1 2 0).workerId 0),
          { Generator.mk 0 1 2 0 with sequence := 0, lastTimestamp := 1577807999999 })) :=
  @nextId_pre_epoch_sign_violation ⟨0, 1, 2, 0⟩ 1577807999999 []
    (by decide) (by decide) (by decide) (by decide) (by decide) (by decide)

/-- The node-identity and sequence fields decode exactly from a composed ID,
whatever the timestamp. -/
lemma composeId_components {T dc w q : Int} (hdc0 : 0 ≤ dc) (hdc : dc ≤ 31)
    (hw0 : 0 ≤ w) (hw : w ≤ 31) (hq0 : 0 ≤ q) (hq : q ≤ 4095) :
    workerComponent (composeId T dc w q) = w.toNat ∧
      datacenterComponent (composeId T dc w q) = dc.toNat ∧
      seqComponent (composeId T dc w q) = q.toNat := by
  have hU := @toU64_composeId T dc w q hdc0 hdc hw0 hw hq0 hq
  have hA : toU64 (sub64 T twepoch) % 2 ^ 42 < 2 ^ 42 := Nat.mod_lt _ (by norm_num)
  have e42 : (2 : Nat) ^ 42 = 4398046511104 := by norm_num
  have e22 : (2 : Nat) ^ 22 = 4194304 := by norm_num
  have e17 : (2 : Nat) ^ 17 = 131072 := by norm_num
  have e12 : (2 : Nat) ^ 12 = 4096 := by norm_num
  have e5 : (2 : Nat) ^ 5 = 32 := by norm_num
  rw [e42] at hA
  rw [e22, e17, e12] at hU
  refine ⟨?_, ?_, ?_⟩
  · simp only [workerComponent]
    rw [hU, e12, e5]
    omega
  · simp only [datacenterComponent]
    rw [hU, e17, e5]
    omega
  · simp only [seqComponent]
    rw [hU, e12]
    omega

/-- C7: from every ID issued by a generator whose `workerId` and
`datacenterId` are in `[0, 31]` (as `New` guarantees), bits 16-12 recover
exactly the `workerId` and bits 21-17 exactly the `datacenterId`; the call
leaves both identity fields unchanged, so this holds for every ID the
instance ever issues. -/
theorem issued_id_decodes_identity {s : Generator} {t : Int} {rest : List Int}
    {a : Int} {s1 : Generator}
    (hw0 : 0 ≤ s.workerId) (hw : s.workerId ≤ 31)
    (hdc0 : 0 ≤ s.datacenterId) (hdc : s.datacenterId ≤ 31)
    (h : NextId s t rest = some (Except.ok a, s1)) :
    workerComponent a = s.workerId.toNat ∧
      datacenterComponent a = s.datacenterId.toNat ∧
      s1.workerId = s.workerId ∧ s1.datacenterId = s.datacenterId := by
  obtain ⟨hwid, hdcid, ha, hq0', hq1', _, _, _⟩ := nextId_ok_elim h
  obtain ⟨h1, h2, _⟩ :=
    @composeId_components s1.lastTimestamp s.datacenterId s.workerId s1.sequence
      hdc0 hdc hw0 hw hq0' hq1'
  exact ⟨by rw [ha]; exact h1, by rw [ha]; exact h2, hwid, hdcid⟩

set_option maxRecDepth 4000 in
theorem issued_id_decodes_identity_witness :
    workerComponent (composeId 10 5 3 0) = (3 : Int).toNat ∧
      datacenterComponent (composeId 10 5 3 0) = (5 : Int).toNat ∧
      (Generator.mk 10 3 5 0).workerId = (Generator.mk 0 3 5 0).workerId ∧
      (Generator.mk 10 3 5 0).datacenterId = (Generator.mk 0 3 5 0).datacenterId :=
  @issued_id_decodes_identity ⟨0, 3, 5, 0⟩ 10 [] (composeId 10 5 3 0) ⟨10, 3, 5, 0⟩
    (by decide) (by decide) (by decide) (by decide) rfl

set_option maxRecDepth 4000 in
/-- C1 fails as stated: two successful calls with strictly advancing clock
readings that straddle the 2020 epoch constant produce IDs whose unsigned
64-bit order is inverted.  From the state `New 1 1` builds, a call reading
1577807999999 ms (one millisecond before the epoch) returns -4059136, and
the next call reading 1577808000000 ms returns 135168, whose unsigned
representative is smaller. -/
theorem nextId_unsigned_order_counterexample :
    New 1 1 = Except.ok ⟨0, 1, 1, 0⟩ ∧
      NextId ⟨0, 1, 1, 0⟩ 1577807999999 [] =
        some (Except.ok (-4059136), ⟨1577807999999, 1, 1, 0⟩) ∧
      NextId ⟨1577807999999, 1, 1, 0⟩ 1577808000000 [] =
        some (Except.ok 135168, ⟨1577808000000, 1, 1, 0⟩) ∧
      (1577807999999 : Int) < 1577808000000 ∧
      toU64 135168 < toU64 (-4059136) :=
  ⟨rfl, rfl, rfl, by decide, by decide⟩

/-- C1 (amended): for two successful `NextId` calls a then b on the same
generator with valid node identity, provided every clock reading lies in
the representable window `[twepoch, twepoch + 2^41)`, the unsigned 64-bit
representative of b strictly exceeds that of a (hence b ≥ a and b ≠ a as
unsigned integers). -/
theorem nextId_strictly_monotonic {s : Generator} {t1 t2 : Int}
    {r1 r2 : List Int} {a b : Int} {s1 s2 : Generator}
    (hw0 : 0 ≤ s.workerId) (hw : s.workerId ≤ 31)
    (hdc0 : 0 ≤ s.datacenterId) (hdc : s.datacenterId ≤ 31)
    (hc1 : ∀ x ∈ t1 :: r1, twepoch ≤ x ∧ x < twepoch + 2 ^ 41)
    (hc2 : ∀ x ∈ t2 :: r2, twepoch ≤ x ∧ x < twepoch + 2 ^ 41)
    (h1 : NextId s t1 r1 = some (Except.ok a, s1))
    (h2 : NextId s1 t2 r2 = some (Except.ok b, s2)) :
    toU64 a < toU64 b := by
  obtain ⟨hw1, hdc1, ha, hqa0, hqa1, hle1, hmem1, _⟩ := nextId_ok_elim h1
  obtain ⟨hw2, hdc2, hb, hqb0, hqb1, hle2, hmem2, hcase2⟩ := nextId_ok_elim h2
  obtain ⟨hT1lo, hT1hi⟩ := hc1 _ hmem1
  obtain ⟨hT2lo, hT2hi⟩ := hc2 _ hmem2
  rw [hw1, hdc1] at hb
  have hUa := (composeId_inrange hT1lo hT1hi hdc0 hdc hw0 hw hqa0 hqa1).2
  have hUb := (composeId_inrange hT2lo hT2hi hdc0 hdc hw0 hw hqb0 hqb1).2
  rw [ha, hb, hUa, hUb]
  have e22 : (2 : Int) ^ 22 = 4194304 := by norm_num
  have e17 : (2 : Int) ^ 17 = 131072 := by norm_num
  have e12 : (2 : Int) ^ 12 = 4096 := by norm_num
  have e41 : (2 : Int) ^ 41 = 2199023255552 := by norm_num
  rw [twepoch_eq] at hT1lo hT1hi hT2lo hT2hi ⊢
  rw [e41] at hT1hi hT2hi
  rw [e22, e17, e12]
  rcases hcase2 with hlt | ⟨heq, _, hseq, hne⟩
  · omega
  · have hq2 : s2.sequence = (s1.sequence + 1) % 4096 :=
      hseq.trans (and64_seq hqa0 hqa1)
    rw [heq]
    omega

set_option maxRecDepth 4000 in
theorem nextId_strictly_monotonic_witness :
    toU64 266240 < toU64 266241 :=
  @nextId_strictly_monotonic ⟨0, 1, 2, 0⟩ 1577808000000 1577808000000 [] []
    266240 266241 ⟨1577808000000, 1, 2, 0⟩ ⟨1577808000000, 1, 2, 1⟩
    (by decide) (by decide) (by decide) (by decide) (by decide) (by decide)
    rfl rfl

/-- One same-millisecond call that does not exhaust the sequence budget:
the sequence advances by one and the timestamp stays. -/
lemma nextId_same_ms_step {w dc T k : Int} (hk0 : 0 ≤ k) (hk : k + 1 ≤ 4095) :
    NextId ⟨T, w, dc, k⟩ T [] =
      some (Except.ok (composeId T dc w (k + 1)), ⟨T, w, dc, k + 1⟩) := by
  have hmask : and64 (k + 1) sequenceMask = k + 1 := by
    rw [and64_seq hk0 (by omega)]
    omega
  have hne : ¬(k + 1 = (0 : Int)) := by omega
  simp only [NextId]
  rw [if_pos trivial, hmask, if_neg hne, if_neg (lt_irrefl T)]

/-- Iterating same-millisecond calls from sequence `k`: `n` calls return the
IDs with sequences `k+1 .. k+n` and leave the state at sequence `k+n`, as
long as the budget `4095` is not exhausted. -/
lemma runSameMs_from {w dc T : Int} :
    ∀ (n : Nat) (k : Int), 0 ≤ k → k + n ≤ 4095 →
      runSameMs ⟨T, w, dc, k⟩ T n =
        some ((List.range n).map (fun i : Nat => composeId T dc w (k + 1 + (i : Int))),
          ⟨T, w, dc, k + (n : Int)⟩) := by
  intro n
  induction n with
  | zero =>
    intro k hk0 hk
    simp [runSameMs]
  | succ n ih =>
    intro k hk0 hk
    have hn : ((n + 1 : Nat) : Int) = (n : Int) + 1 := by push_cast; ring
    rw [hn] at hk
    have hstep := @nextId_same_ms_step w dc T k hk0 (by omega)
    simp only [runSameMs, hstep, ih (k + 1) (by omega) (by omega)]
    rw [List.range_succ_eq_map, List.map_cons, List.map_map]
    have hfun : ((fun i : Nat => composeId T dc w (k + 1 + (i : Int))) ∘ Nat.succ) =
        fun i : Nat => composeId T dc w (k + 1 + 1 + (i : Int)) := by
      funext i
      simp only [Function.comp_apply]
      congr 1
      push_cast
      ring
    rw [hfun]
    have hlast : k + ((n + 1 : Nat) : Int) = k + 1 + (n : Int) := by push_cast; ring
    rw [hlast]
    simp only [Nat.cast_zero, add_zero]

lemma runSameMs_succ {s s1 s2 : Generator} {T id : Int} {ids : List Int} (n : Nat)
    (h : NextId s T [] = some (Except.ok id, s1))
    (h2 : runSameMs s1 T n = some (ids, s2)) :
    runSameMs s T (n + 1) = some (id :: ids, s2) := by
  simp only [runSameMs, h, h2]

/-- The timestamp component decodes exactly when the timestamp is in the
representable window. -/
lemma composeId_timestampComponent {T dc w q : Int}
    (hT0 : twepoch ≤ T) (hT1 : T < twepoch + 2 ^ 41)
    (hdc0 : 0 ≤ dc) (hdc : dc ≤ 31) (hw0 : 0 ≤ w) (hw : w ≤ 31)
    (hq0 : 0 ≤ q) (hq : q ≤ 4095) :
    timestampComponent (composeId T dc w q) = (T - twepoch).toNat := by
  have hU := (composeId_inrange hT0 hT1 hdc0 hdc hw0 hw hq0 hq).2
  simp only [timestampComponent]
  rw [hU]
  have e22 : (2 : Int) ^ 22 = 4194304 := by norm_num
  have e17 : (2 : Int) ^ 17 = 131072 := by norm_num
  have e12 : (2 : Int) ^ 12 = 4096 := by norm_num
  have e41 : (2 : Int) ^ 41 = 2199023255552 := by norm_num
  have e22n : (2 : Nat) ^ 22 = 4194304 := by norm_num
  have e41n : (2 : Nat) ^ 41 = 2199023255552 := by norm_num
  rw [twepoch_eq] at hT0 hT1 ⊢
  rw [e41] at hT1
  rw [e22, e17, e12, e22n, e41n]
  omega

set_option maxRecDepth 2000 in
/-- C5: from any valid generator state strictly behind the millisecond `T`
(in the representable window), 4096 consecutive calls all reading `T`
succeed and return the IDs with sequence components 0, 1, ..., 4095 in
order, every one carrying the timestamp component `T - twepoch`; a 4097th
call that first reads `T` again busy-waits and, on a strictly later
reading, returns an ID whose timestamp component is at least one greater. -/
theorem sameMs_4096_sequence_rollover {s : Generator} {T : Int}
    (hw0 : 0 ≤ s.workerId) (hw : s.workerId ≤ 31)
    (hdc0 : 0 ≤ s.datacenterId) (hdc : s.datacenterId ≤ 31)
    (hlt : s.lastTimestamp < T) (hT0 : twepoch ≤ T) (hT1 : T < twepoch + 2 ^ 41) :
    runSameMs s T 4096 =
      some (List.map (fun i : Nat => composeId T s.datacenterId s.workerId (i : Int))
        (List.range 4096), ⟨T, s.workerId, s.datacenterId, 4095⟩) ∧
      (∀ i : Nat, i < 4096 →
        seqComponent (composeId T s.datacenterId s.workerId (i : Int)) = i ∧
          timestampComponent (composeId T s.datacenterId s.workerId (i : Int)) =
            (T - twepoch).toNat) ∧
      (∀ T2 r2, T < T2 → T2 < twepoch + 2 ^ 41 →
        ∃ a s2, NextId ⟨T, s.workerId, s.datacenterId, 4095⟩ T (T2 :: r2) =
          some (Except.ok a, s2) ∧
          timestampComponent a ≥ (T - twepoch).toNat + 1) := by
  refine ⟨?_, ?_, ?_⟩
  · have hfirst : NextId s T [] = some (Except.ok
        (composeId T s.datacenterId s.workerId 0), ⟨T, s.workerId, s.datacenterId, 0⟩) := by
      simp only [NextId]
      rw [if_neg (by omega), if_neg (by omega)]
    have h0 := @runSameMs_from s.workerId s.datacenterId T
      4095 0 (le_refl 0) (by norm_num)
    have hfun : ((fun i : Nat => composeId T s.datacenterId s.workerId ((i : Int))) ∘
        Nat.succ) = fun i : Nat =>
          composeId T s.datacenterId s.workerId (0 + 1 + (i : Int)) := by
      funext i
      simp only [Function.comp_apply]
      congr 1
      push_cast
      ring
    have hlist : List.map (fun i : Nat => composeId T s.datacenterId s.workerId (i : Int))
        (List.range (4095 + 1)) =
        composeId T s.datacenterId s.workerId 0 ::
          List.map (fun i : Nat => composeId T s.datacenterId s.workerId (0 + 1 + (i : Int)))
            (List.range 4095) := by
      rw [List.range_succ_eq_map, List.map_cons, List.map_map, hfun]
      simp only [Nat.cast_zero]
    rw [show (4096 : Nat) = 4095 + 1 from rfl, runSameMs_succ 4095 hfirst h0, hlist]
    simp only [Nat.cast_ofNat, zero_add]
  · intro i hi
    have hi0 : (0 : Int) ≤ (i : Int) := by omega
    have hi1 : (i : Int) ≤ 4095 := by omega
    refine ⟨?_, composeId_timestampComponent hT0 hT1 hdc0 hdc hw0 hw hi0 hi1⟩
    have := (@composeId_components T s.datacenterId s.workerId (i : Int)
      hdc0 hdc hw0 hw hi0 hi1).2.2
    rw [this]
    omega
  · intro T2 r2 hgt hlt2
    have hcall : NextId ⟨T, s.workerId, s.datacenterId, 4095⟩ T (T2 :: r2) =
        some (Except.ok (composeId T2 s.datacenterId s.workerId 0),
          ⟨T2, s.workerId, s.datacenterId, 0⟩) := by
      have hmask : and64 ((4095 : Int) + 1) sequenceMask = 0 := by decide
      have htn : tilNextMillis T (T2 :: r2) = some T2 := by
        simp only [tilNextMillis]
        rw [if_neg (by omega)]
      simp only [NextId]
      rw [if_pos trivial, hmask, if_pos rfl, htn, if_neg (lt_irrefl T)]
    refine ⟨_, _, hcall, ?_⟩
    rw [composeId_timestampComponent (by omega) hlt2 hdc0 hdc hw0 hw
      (le_refl 0) (by norm_num)]
    rw [twepoch_eq] at hT0 ⊢
    omega

set_option maxRecDepth 4000 in
theorem sameMs_4096_sequence_rollover_witness :
    runSameMs ⟨0, 1, 2, 6⟩ 1577808000000 4096 =
      some (List.map (fun i : Nat => composeId 1577808000000 2 1 (i : Int))
        (List.range 4096), ⟨1577808000000, 1, 2, 4095⟩) ∧
      (∀ i : Nat, i < 4096 →
        seqComponent (composeId 1577808000000 2 1 (i : Int)) = i ∧
          timestampComponent (composeId 1577808000000 2 1 (i : Int)) =
            ((1577808000000 : Int) - twepoch).toNat) ∧
      (∀ T2 r2, (1577808000000 : Int) < T2 → T2 < twepoch + 2 ^ 41 →
        ∃ a s2, NextId ⟨1577808000000, 1, 2, 4095⟩ 1577808000000 (T2 :: r2) =
          some (Except.ok a, s2) ∧
          timestampComponent a ≥ ((1577808000000 : Int) - twepoch).toNat + 1) :=
  @sameMs_4096_sequence_rollover ⟨0, 1, 2, 6⟩ 1577808000000
    (by decide) (by decide) (by decide) (by decide) (by decide) (by decide)
    (by decide)

end Snowflake
